import Mathlib

/-!
Verification of the configuration-loading core of aklog-server
(src/config.rs and src/error.rs), shallowly embedded in Lean.

A compiled regular expression is modelled by its observable list of
capture slots in declaration order, as produced by the regex library:
slot 0 is the implicit whole-match slot, each further slot is a declared
capture group, carrying `some name` when the group is named and `none`
otherwise.

File reading and TOML decoding are external library calls in the source
(`std::fs::read_to_string`, `toml::from_str` together with the
serde/serde_regex decoding of the schema, regex compilation included);
they are passed in as explicit function parameters `readToString` and
`tomlFromStr`.
-/

deriving instance DecidableEq for Except

/-- A compiled regular expression, modelled by its capture-slot list.
Slot 0 is the implicit whole-match slot; later slots are the declared
capture groups in left-to-right declaration order, `some name` when
named. -/
structure Regex where
  captureNames : List (Option String)
deriving DecidableEq, Repr

/-- The error taxonomy of src/error.rs, generated by `error_chain!`:
`ConfigParseError(filename)` is the declared kind, and `Msg` is the
variant error_chain produces for a string context attached by
`chain_err` (used at the file-read failure with the context
"configuration file could not be read"). Paths are modelled as
strings. -/
inductive ErrorKind where
  | Msg (msg : String)
  | ConfigParseError (filename : String)
deriving DecidableEq, Repr

/-- One `[[item]]` of the configuration file, deserialization form
(struct `LogItemDeser` of src/config.rs). -/
structure LogItemDeser where
  file : String
  regex : Regex
  «alias» : String
deriving DecidableEq, Repr

/-- The decoded configuration file (struct `ConfigDeser` of
src/config.rs): the list of its items. -/
structure ConfigDeser where
  item : List LogItemDeser
deriving DecidableEq, Repr

/-- `ConfigDeser::get_items`. -/
def ConfigDeser.getItems (c : ConfigDeser) : List LogItemDeser :=
  c.item

/-- `ConfigDeser::load`: reads the file at `path` and decodes it.
A read failure is chained with the context string
"configuration file could not be read"; a decode failure becomes
`ConfigParseError(path)`. The filesystem and the TOML decoder are the
parameters `readToString` and `tomlFromStr`. -/
def ConfigDeser.load (readToString : String → Except String String)
    (tomlFromStr : String → Option ConfigDeser) (path : String) :
    Except ErrorKind ConfigDeser :=
  match readToString path with
  | Except.error _ => Except.error (ErrorKind.Msg "configuration file could not be read")
  | Except.ok s =>
    match tomlFromStr s with
    | some obj => Except.ok obj
    | none => Except.error (ErrorKind.ConfigParseError path)

/-- The usable form of one item (struct `LogItem` of src/config.rs). -/
structure LogItem where
  file : String
  regex : Regex
  «alias» : String
  capture_names : List String
  aliases : List String
deriving DecidableEq, Repr

/-- `LogItem::try_from(LogItemDeser)`: skips the first two capture
slots (the whole match and the timestamp slot), keeps the names of the
remaining named groups, and derives one `alias.name` metric alias per
kept name (the source pushes them onto a vector in a loop, modelled by
`foldl`). -/
def LogItem.tryFrom (lid : LogItemDeser) : Except ErrorKind LogItem :=
  let cnames : List String := ((lid.regex.captureNames.drop 2).filterMap id)
  let als : List String :=
    cnames.foldl (fun acc name => acc ++ [lid.«alias» ++ "." ++ name]) []
  Except.ok
    { file := lid.file
      regex := lid.regex
      «alias» := lid.«alias»
      capture_names := cnames
      aliases := als }

/-- The usable configuration (struct `Config` of src/config.rs). -/
structure Config where
  items : List LogItem
  all_aliases : List String
deriving DecidableEq, Repr

/-- The item loop of `Config::load`: transforms each deserialized item
in order, propagating the first error (the `?` in the loop body). -/
def Config.loadItems : List LogItemDeser → Except ErrorKind (List LogItem)
  | [] => Except.ok []
  | lid :: rest =>
    match LogItem.tryFrom lid with
    | Except.error e => Except.error e
    | Except.ok li =>
      match Config.loadItems rest with
      | Except.error e => Except.error e
      | Except.ok lis => Except.ok (li :: lis)

/-- `Config::load`: deserializes the file, transforms every item, and
combines all per-item aliases into one vector (the nested `for` loops,
modelled by `foldl` over the items appending each item's aliases). -/
def Config.load (readToString : String → Except String String)
    (tomlFromStr : String → Option ConfigDeser) (path : String) :
    Except ErrorKind Config :=
  match ConfigDeser.load readToString tomlFromStr path with
  | Except.error e => Except.error e
  | Except.ok conf_deser =>
    match Config.loadItems conf_deser.getItems with
    | Except.error e => Except.error e
    | Except.ok l_items =>
      Except.ok
        { items := l_items
          all_aliases := l_items.foldl (fun acc li => acc ++ li.aliases) [] }

/-- The spec's description of the capture-name computation, stated the
way the spec words it: enumerate the capture slots with their indices
in declaration order, skip the conceptual slots of index 0 and index 1
regardless of naming, and collect the names of the remaining slots in
order, dropping nameless slots. Used to compare against the behaviour
of `LogItem.tryFrom`. -/
def captureNamesSpec (slots : List (Option String)) : List String :=
  ((slots.enum).filter (fun p => 2 ≤ p.1)).filterMap (fun p => p.2)

/-- The sample item of the spec's C4 test vector: the pattern
`(?P<a>...)(?P<ts>...)(?P<b>...)(?P<c>...)` has capture slots
`[none, some "a", some "ts", some "b", some "c"]` (slot 0 is the
implicit whole match), with alias `"disk"`. -/
def c4Lid : LogItemDeser :=
  { file := "f"
    regex := { captureNames := [none, some "a", some "ts", some "b", some "c"] }
    «alias» := "disk" }

/-! ## Helper lemmas -/

lemma enumFrom_filter_ge (l : List (Option String)) :
    ∀ n, 2 ≤ n →
      (List.enumFrom n l).filter (fun p => 2 ≤ p.1) = List.enumFrom n l := by
  induction l with
  | nil => intro n _; rfl
  | cons a t ih =>
    intro n hn
    simp only [List.enumFrom, List.filter]
    rw [decide_eq_true hn, ih (n + 1) (by omega)]

lemma enumFrom_filterMap_snd (l : List (Option String)) :
    ∀ n, (List.enumFrom n l).filterMap (fun p => p.2) = l.filterMap id := by
  induction l with
  | nil => intro n; rfl
  | cons a t ih =>
    intro n
    cases a <;> simp [List.enumFrom, List.filterMap, ih]

lemma captureNamesSpec_eq (slots : List (Option String)) :
    captureNamesSpec slots = (slots.drop 2).filterMap id := by
  match slots with
  | [] => rfl
  | [a] =>
    simp [captureNamesSpec, List.enum, List.enumFrom, List.filter]
  | a :: b :: rest =>
    show ((List.enumFrom 0 (a :: b :: rest)).filter (fun p => 2 ≤ p.1)).filterMap
        (fun p => p.2) = rest.filterMap id
    simp only [List.enumFrom, List.filter]
    norm_num
    rw [enumFrom_filter_ge rest 2 (le_refl 2), enumFrom_filterMap_snd]

lemma foldl_push {α β : Type} (g : α → β) :
    ∀ (l : List α) (acc : List β),
      l.foldl (fun a x => a ++ [g x]) acc = acc ++ l.map g := by
  intro l
  induction l with
  | nil => intro acc; simp
  | cons x t ih => intro acc; simp [List.foldl, ih]

lemma foldl_append_aliases :
    ∀ (l : List LogItem) (acc : List String),
      l.foldl (fun a li => a ++ li.aliases) acc = acc ++ (l.map LogItem.aliases).flatten := by
  intro l
  induction l with
  | nil => intro acc; simp
  | cons x t ih => intro acc; simp [List.foldl, ih]

/-- Normal form of the item loop: every item is transformed, in order,
and the loop never fails. -/
lemma loadItems_eq (l : List LogItemDeser) :
    Config.loadItems l = Except.ok (l.map (fun lid =>
      { file := lid.file
        regex := lid.regex
        «alias» := lid.«alias»
        capture_names := (lid.regex.captureNames.drop 2).filterMap id
        aliases := ((lid.regex.captureNames.drop 2).filterMap id).foldl
          (fun acc name => acc ++ [lid.«alias» ++ "." ++ name]) [] })) := by
  induction l with
  | nil => rfl
  | cons lid rest ih => simp [Config.loadItems, LogItem.tryFrom, ih]

/-! ## Claim theorems -/

/-- C1: for every RawEntry, the transformer computes `capture_names` by
enumerating the pattern's capture slots in declaration order, skipping
the first two conceptual slots (index 0 and index 1) regardless of
naming, then collecting the names of all remaining slots in
left-to-right order while dropping every nameless slot. -/
theorem C1_capture_names_spec (lid : LogItemDeser) (li : LogItem)
    (h : LogItem.tryFrom lid = Except.ok li) :
    li.capture_names = captureNamesSpec lid.regex.captureNames := by
  simp only [LogItem.tryFrom] at h
  injection h with h
  subst h
  rw [captureNamesSpec_eq]

/-- C1 witness: the theorem applied to a concrete item. -/
theorem C1_witness :
    LogItem.tryFrom { file := "f", regex := { captureNames := [none, some "t", some "x"] }, «alias» := "a" }
      = Except.ok { file := "f", regex := { captureNames := [none, some "t", some "x"] },
                    «alias» := "a", capture_names := ["x"], aliases := ["a.x"] } ∧
    ({ file := "f", regex := { captureNames := [none, some "t", some "x"] },
       «alias» := "a", capture_names := ["x"], aliases := ["a.x"] } : LogItem).capture_names
      = captureNamesSpec [none, some "t", some "x"] :=
  ⟨by decide,
   C1_capture_names_spec
     { file := "f", regex := { captureNames := [none, some "t", some "x"] }, «alias» := "a" }
     { file := "f", regex := { captureNames := [none, some "t", some "x"] },
       «alias» := "a", capture_names := ["x"], aliases := ["a.x"] }
     (by decide)⟩

/-- C4 counterexample: for the pattern
`(?P<a>...)(?P<ts>...)(?P<b>...)(?P<c>...)` with alias `"disk"`, the
transformer does NOT yield `capture_names = ["b", "c"]` and
`aliases = ["disk.b", "disk.c"]`: `skip(2)` skips the whole-match slot
and the first declared group `a`, so `ts` is kept. -/
theorem C4_counterexample :
    ¬ ((LogItem.tryFrom c4Lid).map LogItem.capture_names = Except.ok ["b", "c"] ∧
       (LogItem.tryFrom c4Lid).map LogItem.aliases = Except.ok ["disk.b", "disk.c"]) := by
  decide

/-- C4 amended: for that pattern the transformer yields
`capture_names = ["ts", "b", "c"]`, and with alias `"disk"` it yields
`aliases = ["disk.ts", "disk.b", "disk.c"]`. -/
theorem C4_amended_result :
    (LogItem.tryFrom c4Lid).map LogItem.capture_names = Except.ok ["ts", "b", "c"] ∧
    (LogItem.tryFrom c4Lid).map LogItem.aliases = Except.ok ["disk.ts", "disk.b", "disk.c"] := by
  decide

/-- C9: the entry transformer always succeeds: for every deserialized
item it returns `Ok` with a transformed item; the transformation step
itself never returns an error. -/
theorem C9_tryFrom_infallible (lid : LogItemDeser) :
    ∃ li, LogItem.tryFrom lid = Except.ok li :=
  ⟨_, rfl⟩

/-- Elimination form of a successful `Config.load`: the deserializer
succeeded, the item loop produced exactly the items of the result, and
`all_aliases` is the alias-append loop over those items. -/
lemma load_ok_elim (r : String → Except String String)
    (t : String → Option ConfigDeser) (path : String) (cfg : Config)
    (h : Config.load r t path = Except.ok cfg) :
    ∃ cd, ConfigDeser.load r t path = Except.ok cd ∧
      Config.loadItems cd.getItems = Except.ok cfg.items ∧
      cfg.all_aliases = cfg.items.foldl (fun acc li => acc ++ li.aliases) [] := by
  cases hc : ConfigDeser.load r t path with
  | error e =>
    simp only [Config.load, hc] at h
    exact Except.noConfusion h
  | ok cd =>
    simp only [Config.load, hc, loadItems_eq] at h
    injection h with h
    subst h
    exact ⟨cd, rfl, by rw [loadItems_eq], rfl⟩

/-- C2: for every produced item, `aliases` is index-aligned with
`capture_names`: same length, and the i-th alias is the entry's alias,
a dot, and the i-th capture name. -/
theorem C2_aliases_parallel (lid : LogItemDeser) (li : LogItem)
    (h : LogItem.tryFrom lid = Except.ok li) :
    li.aliases.length = li.capture_names.length ∧
    ∀ i (h1 : i < li.aliases.length) (h2 : i < li.capture_names.length),
      li.aliases.get ⟨i, h1⟩ = li.«alias» ++ "." ++ li.capture_names.get ⟨i, h2⟩ := by
  simp only [LogItem.tryFrom] at h
  injection h with h
  subst h
  have he : ((lid.regex.captureNames.drop 2).filterMap id).foldl
      (fun acc name => acc ++ [lid.«alias» ++ "." ++ name]) []
      = ((lid.regex.captureNames.drop 2).filterMap id).map
        (fun name => lid.«alias» ++ "." ++ name) := by
    rw [foldl_push]
    simp
  constructor
  · simp [he]
  · intro i h1 h2
    simp [he]

/-- C2 witness: the theorem applied to a concrete item. -/
theorem C2_witness :
    ({ file := "f", regex := { captureNames := [none, some "t", some "x", some "y"] },
       «alias» := "a", capture_names := ["x", "y"], aliases := ["a.x", "a.y"] } : LogItem).aliases.length
      = ({ file := "f", regex := { captureNames := [none, some "t", some "x", some "y"] },
           «alias» := "a", capture_names := ["x", "y"], aliases := ["a.x", "a.y"] } : LogItem).capture_names.length ∧
    ∀ i (h1 : i < ({ file := "f", regex := { captureNames := [none, some "t", some "x", some "y"] },
                     «alias» := "a", capture_names := ["x", "y"], aliases := ["a.x", "a.y"] } : LogItem).aliases.length)
        (h2 : i < ({ file := "f", regex := { captureNames := [none, some "t", some "x", some "y"] },
                     «alias» := "a", capture_names := ["x", "y"], aliases := ["a.x", "a.y"] } : LogItem).capture_names.length),
      ({ file := "f", regex := { captureNames := [none, some "t", some "x", some "y"] },
         «alias» := "a", capture_names := ["x", "y"], aliases := ["a.x", "a.y"] } : LogItem).aliases.get ⟨i, h1⟩
        = ({ file := "f", regex := { captureNames := [none, some "t", some "x", some "y"] },
             «alias» := "a", capture_names := ["x", "y"], aliases := ["a.x", "a.y"] } : LogItem).«alias»
          ++ "." ++ ({ file := "f", regex := { captureNames := [none, some "t", some "x", some "y"] },
                       «alias» := "a", capture_names := ["x", "y"], aliases := ["a.x", "a.y"] } : LogItem).capture_names.get ⟨i, h2⟩ :=
  C2_aliases_parallel
    { file := "f", regex := { captureNames := [none, some "t", some "x", some "y"] }, «alias» := "a" }
    { file := "f", regex := { captureNames := [none, some "t", some "x", some "y"] },
      «alias» := "a", capture_names := ["x", "y"], aliases := ["a.x", "a.y"] }
    (by decide)

/-- C3: for every successful load, `all_aliases` is the order-preserving
concatenation, entry by entry, of every item's `aliases`, with no
deduplication and no sorting. -/
theorem C3_all_aliases_concat (r : String → Except String String)
    (t : String → Option ConfigDeser) (path : String) (cfg : Config)
    (h : Config.load r t path = Except.ok cfg) :
    cfg.all_aliases = (cfg.items.map LogItem.aliases).flatten := by
  obtain ⟨cd, _, _, ha⟩ := load_ok_elim r t path cfg h
  rw [ha, foldl_append_aliases]
  simp

/-- C3 witness: the theorem applied to a concrete loader whose file has
two items producing the duplicate aliases ["al.x", "al.x"]. -/
theorem C3_witness :
    Config.load (fun _ => Except.ok "text")
      (fun _ => some { item := [
        { file := "f1", regex := { captureNames := [none, none, some "x"] }, «alias» := "al" },
        { file := "f2", regex := { captureNames := [none, none, some "x"] }, «alias» := "al" }] })
      "conf.toml"
      = Except.ok
        { items := [
            { file := "f1", regex := { captureNames := [none, none, some "x"] },
              «alias» := "al", capture_names := ["x"], aliases := ["al.x"] },
            { file := "f2", regex := { captureNames := [none, none, some "x"] },
              «alias» := "al", capture_names := ["x"], aliases := ["al.x"] }]
          all_aliases := ["al.x", "al.x"] } ∧
    ({ items := [
         { file := "f1", regex := { captureNames := [none, none, some "x"] },
           «alias» := "al", capture_names := ["x"], aliases := ["al.x"] },
         { file := "f2", regex := { captureNames := [none, none, some "x"] },
           «alias» := "al", capture_names := ["x"], aliases := ["al.x"] }]
       all_aliases := ["al.x", "al.x"] } : Config).all_aliases
      = (({ items := [
              { file := "f1", regex := { captureNames := [none, none, some "x"] },
                «alias» := "al", capture_names := ["x"], aliases := ["al.x"] },
              { file := "f2", regex := { captureNames := [none, none, some "x"] },
                «alias» := "al", capture_names := ["x"], aliases := ["al.x"] }]
            all_aliases := ["al.x", "al.x"] } : Config).items.map LogItem.aliases).flatten :=
  ⟨by decide,
   C3_all_aliases_concat (fun _ => Except.ok "text")
     (fun _ => some { item := [
       { file := "f1", regex := { captureNames := [none, none, some "x"] }, «alias» := "al" },
       { file := "f2", regex := { captureNames := [none, none, some "x"] }, «alias» := "al" }] })
     "conf.toml" _ (by decide)⟩


/-! ## Sample loader data used by witnesses -/

/-- A sample decoded configuration with two items. -/
def twoItemDeser : ConfigDeser :=
  { item := [
    { file := "f1", regex := { captureNames := [none, none, some "x"] }, «alias» := "al" },
    { file := "f2", regex := { captureNames := [none] }, «alias» := "b" }] }

/-- A sample filesystem on which every read succeeds. -/
def twoItemRead : String → Except String String :=
  fun _ => Except.ok "text"

/-- A sample TOML decoder producing `twoItemDeser`. -/
def twoItemToml : String → Option ConfigDeser :=
  fun _ => some twoItemDeser

/-- The configuration that loading `twoItemDeser` produces. -/
def twoItemConfig : Config :=
  { items := [
      { file := "f1", regex := { captureNames := [none, none, some "x"] },
        «alias» := "al", capture_names := ["x"], aliases := ["al.x"] },
      { file := "f2", regex := { captureNames := [none] },
        «alias» := "b", capture_names := [], aliases := [] }]
    all_aliases := ["al.x"] }

/-- C5: for every valid input file, `load` returns a configuration with
exactly one usable item per decoded raw item: the lengths agree. -/
theorem C5_entry_count (r : String → Except String String)
    (t : String → Option ConfigDeser) (path : String)
    (cd : ConfigDeser) (cfg : Config)
    (h1 : ConfigDeser.load r t path = Except.ok cd)
    (h2 : Config.load r t path = Except.ok cfg) :
    cfg.items.length = cd.item.length := by
  obtain ⟨cd2, hc, hl, _⟩ := load_ok_elim r t path cfg h2
  rw [h1] at hc
  injection hc with hc
  subst hc
  rw [loadItems_eq] at hl
  injection hl with hl
  rw [← hl, List.length_map, ConfigDeser.getItems]

/-- C5 witness: the theorem applied to a concrete loader with two
decoded items. -/
theorem C5_witness :
    twoItemConfig.items.length = twoItemDeser.item.length :=
  C5_entry_count twoItemRead twoItemToml "conf.toml" twoItemDeser twoItemConfig
    (by decide) (by decide)

/-- C6: for every pattern with no named capture slots beyond the first
two (including patterns with fewer than two declared groups), the
transformer succeeds and yields empty `capture_names` and empty
`aliases`. -/
theorem C6_no_extra_names_empty (lid : LogItemDeser)
    (h : ∀ o ∈ lid.regex.captureNames.drop 2, o = none) :
    ∃ li, LogItem.tryFrom lid = Except.ok li ∧
      li.capture_names = [] ∧ li.aliases = [] := by
  have hcn : (lid.regex.captureNames.drop 2).filterMap id = [] := by
    rw [List.filterMap_eq_nil_iff]
    intro a ha
    exact h a ha
  refine ⟨_, rfl, hcn, ?_⟩
  show ((lid.regex.captureNames.drop 2).filterMap id).foldl
      (fun acc name => acc ++ [lid.«alias» ++ "." ++ name]) [] = []
  rw [hcn]
  rfl

/-- C6 witness: the theorem applied to a pattern whose only slots are
the whole match and the timestamp group. -/
theorem C6_witness :
    (∀ o ∈ (({ file := "f", regex := { captureNames := [none, some "ts"] }, «alias» := "a" }
        : LogItemDeser)).regex.captureNames.drop 2, o = none) ∧
    (∃ li, LogItem.tryFrom { file := "f", regex := { captureNames := [none, some "ts"] }, «alias» := "a" }
        = Except.ok li ∧ li.capture_names = [] ∧ li.aliases = []) :=
  ⟨by decide,
   C6_no_extra_names_empty
     { file := "f", regex := { captureNames := [none, some "ts"] }, «alias» := "a" }
     (by decide)⟩

/-- C7: when the file cannot be read, `load` fails with the chained
read error (the context "configuration file could not be read"), never
with a `ConfigParseError`, and never falls back to a default. -/
theorem C7_read_failure (r : String → Except String String)
    (t : String → Option ConfigDeser) (path e : String)
    (h : r path = Except.error e) :
    Config.load r t path
        = Except.error (ErrorKind.Msg "configuration file could not be read") ∧
    ∀ p, Config.load r t path ≠ Except.error (ErrorKind.ConfigParseError p) := by
  have hl : Config.load r t path
      = Except.error (ErrorKind.Msg "configuration file could not be read") := by
    simp only [Config.load, ConfigDeser.load, h]
  exact ⟨hl, fun p hp => by rw [hl] at hp; injection hp with hp; exact ErrorKind.noConfusion hp⟩

/-- C7 witness: the theorem applied to a filesystem on which the read
fails. -/
theorem C7_witness :
    Config.load (fun _ => Except.error "No such file or directory") (fun _ => none) "missing.toml"
        = Except.error (ErrorKind.Msg "configuration file could not be read") ∧
    ∀ p, Config.load (fun _ => Except.error "No such file or directory") (fun _ => none) "missing.toml"
        ≠ Except.error (ErrorKind.ConfigParseError p) :=
  C7_read_failure (fun _ => Except.error "No such file or directory") (fun _ => none)
    "missing.toml" "No such file or directory" (by decide)

/-- C8: when the file is read but its contents do not decode into the
schema, `load` fails with `ConfigParseError` carrying the attempted
path. -/
theorem C8_parse_failure (r : String → Except String String)
    (t : String → Option ConfigDeser) (path s : String)
    (h1 : r path = Except.ok s) (h2 : t s = none) :
    Config.load r t path = Except.error (ErrorKind.ConfigParseError path) := by
  simp only [Config.load, ConfigDeser.load, h1, h2]

/-- C8 witness: the theorem applied to a readable file whose contents
do not decode. -/
theorem C8_witness :
    Config.load (fun _ => Except.ok "not valid toml") (fun _ => none) "bad.toml"
      = Except.error (ErrorKind.ConfigParseError "bad.toml") :=
  C8_parse_failure (fun _ => Except.ok "not valid toml") (fun _ => none)
    "bad.toml" "not valid toml" (by decide) (by decide)

/-- C10: for every successful load, the i-th usable item keeps the i-th
decoded raw item's file, regex and alias unchanged, in the input order;
the transformer only adds the derived fields. -/
theorem C10_fields_preserved (r : String → Except String String)
    (t : String → Option ConfigDeser) (path : String)
    (cd : ConfigDeser) (cfg : Config)
    (h1 : ConfigDeser.load r t path = Except.ok cd)
    (h2 : Config.load r t path = Except.ok cfg) :
    cfg.items.length = cd.item.length ∧
    ∀ i (hi : i < cfg.items.length) (hj : i < cd.item.length),
      (cfg.items.get ⟨i, hi⟩).file = (cd.item.get ⟨i, hj⟩).file ∧
      (cfg.items.get ⟨i, hi⟩).regex = (cd.item.get ⟨i, hj⟩).regex ∧
      (cfg.items.get ⟨i, hi⟩).«alias» = (cd.item.get ⟨i, hj⟩).«alias» := by
  obtain ⟨cd2, hc, hl, _⟩ := load_ok_elim r t path cfg h2
  rw [h1] at hc
  injection hc with hc
  subst hc
  rw [loadItems_eq] at hl
  injection hl with hl
  refine ⟨by rw [← hl, List.length_map, ConfigDeser.getItems], ?_⟩
  intro i hi hj
  simp only [List.get_eq_getElem]
  rw [List.getElem_of_eq hl.symm hi]
  simp [ConfigDeser.getItems]

/-- C10 witness: the theorem applied to a concrete loader with two
decoded items. -/
theorem C10_witness :
    twoItemConfig.items.length = twoItemDeser.item.length ∧
    ∀ i (hi : i < twoItemConfig.items.length) (hj : i < twoItemDeser.item.length),
      (twoItemConfig.items.get ⟨i, hi⟩).file = (twoItemDeser.item.get ⟨i, hj⟩).file ∧
      (twoItemConfig.items.get ⟨i, hi⟩).regex = (twoItemDeser.item.get ⟨i, hj⟩).regex ∧
      (twoItemConfig.items.get ⟨i, hi⟩).«alias» = (twoItemDeser.item.get ⟨i, hj⟩).«alias» :=
  C10_fields_preserved twoItemRead twoItemToml "conf.toml" twoItemDeser twoItemConfig
    (by decide) (by decide)
